import Mathlib

/-!
Verification of the DFTTest2 AVX2 VapourSynth plugin (cpu_source/source.cpp)
against its natural-language specification.

The C++ source is shallowly embedded: machine integers become Nat / Int,
single-precision float arithmetic on samples becomes exact rational
arithmetic (the operations under study -- scaling by powers of two or by
255, adding 0.5, truncating casts, clamping -- are exact at these inputs),
and the double-precision trigonometry of the offline DFT utility is
idealized as real arithmetic.  Imperative buffers become functions from
flat indices to values; a cell that the program never wrote is modelled as
`none`.
-/

set_option maxHeartbeats 1000000

namespace DFTTest

/-! ### Padding geometry (source.cpp lines 59-69) -/

/-- `calc_pad_size` (lines 59-65): the padded extent of one axis.
`size + ((size % block_size) ? block_size - size % block_size : 0)
      + std::max(block_size - block_step, block_step) * 2`. -/
def calc_pad_size (size block_size block_step : ℕ) : ℕ :=
  size
    + (if size % block_size ≠ 0 then block_size - size % block_size else 0)
    + max (block_size - block_step) block_step * 2

/-- `calc_pad_num` (lines 67-69): number of sliding blocks along one axis,
`(calc_pad_size - block_size) / block_step + 1`.  Division by zero (for
`block_step = 0`) is modelled separately by `calc_pad_num_checked`. -/
def calc_pad_num (size block_size block_step : ℕ) : ℕ :=
  (calc_pad_size size block_size block_step - block_size) / block_step + 1

/-- `calc_pad_num` with the C division made explicit: integer division by
zero is undefined behavior in C++, so `block_step = 0` yields no result. -/
def calc_pad_num_checked (size block_size block_step : ℕ) : Option ℕ :=
  if block_step = 0 then none
  else some ((calc_pad_size size block_size block_step - block_size) / block_step + 1)

/-- The offset of the source region inside the padded plane, as computed in
`reflection_padding_impl` (lines 82-83): `(pad_size - size) / 2`. -/
def pad_offset (size block_size block_step : ℕ) : ℕ :=
  (calc_pad_size size block_size block_step - size) / 2

/-! ### Reflection padding (source.cpp lines 71-121)

The two mirror loops of `reflection_padding_impl` are embedded as folds
over the written index range; `upd` is a single store.  The same folds
serve the horizontal loops (state = one row, `β = Option α`) and the
vertical loops (state = the whole plane, `β = ℕ → Option α`, a store
writes a whole row, matching the `memcpy` row copies). -/

/-- One store into a flat buffer. -/
def upd {β : Type} (g : ℕ → β) (i : ℕ) (v : β) : ℕ → β :=
  fun x => if x = i then v else g x

/-- The low-side mirror loop: `for (x = 0; x < m; x++) dst[x] = dst[2*c - x]`
(lines 95-97 with `m = c = offset_x`, and lines 105-111 with
`m = c = offset_y` acting on rows). -/
def mirrorLo {β : Type} (c m : ℕ) (f : ℕ → β) : ℕ → β :=
  (List.range m).foldl (fun g x => upd g x (g (2 * c - x))) f

/-- The high-side mirror loop: `for (x = s; x < s + len; x++)
dst[x] = dst[2*s - 2 - x]` (lines 99-101 with `s = offset_x + width`, and
lines 114-120 with `s = offset_y + height` acting on rows). -/
def mirrorHi {β : Type} (s len : ℕ) (f : ℕ → β) : ℕ → β :=
  (List.range' s len).foldl (fun g x => upd g x (g (2 * s - 2 - x))) f

/-- The `vs_bitblt` copy of the source into the centered region
(lines 85-89).  Cells outside the copied region are still unwritten. -/
def blit {α : Type} (width height block_size block_step : ℕ)
    (src : ℕ → ℕ → α) : ℕ → ℕ → Option α :=
  fun y x =>
    if pad_offset height block_size block_step ≤ y ∧
       y < pad_offset height block_size block_step + height ∧
       pad_offset width block_size block_step ≤ x ∧
       x < pad_offset width block_size block_step + width then
      some (src (y - pad_offset height block_size block_step)
                (x - pad_offset width block_size block_step))
    else none

/-- Left and right mirror loops applied to one row (lines 92-102). -/
def rowPad {α : Type} (width pad_width offset_x : ℕ)
    (row : ℕ → Option α) : ℕ → Option α :=
  mirrorHi (offset_x + width) (pad_width - (offset_x + width))
    (mirrorLo offset_x offset_x row)

/-- The plane after the blit and the per-row horizontal mirror loops
(lines 85-102); the loops run only over the `height` source rows. -/
def padRows {α : Type} (width height block_size block_step : ℕ)
    (src : ℕ → ℕ → α) : ℕ → ℕ → Option α :=
  fun y =>
    if pad_offset height block_size block_step ≤ y ∧
       y < pad_offset height block_size block_step + height then
      rowPad width (calc_pad_size width block_size block_step)
        (pad_offset width block_size block_step)
        (blit width height block_size block_step src y)
    else blit width height block_size block_step src y

/-- `reflection_padding_impl` (lines 71-121): blit the source to the
center, mirror each source row left and right, then mirror whole rows up
and down (the `memcpy` loops of lines 104-120). -/
def reflection_padding_impl {α : Type} (width height block_size block_step : ℕ)
    (src : ℕ → ℕ → α) : ℕ → ℕ → Option α :=
  mirrorHi (pad_offset height block_size block_step + height)
    (calc_pad_size height block_size block_step -
      (pad_offset height block_size block_step + height))
    (mirrorLo (pad_offset height block_size block_step)
      (pad_offset height block_size block_step)
      (padRows width height block_size block_step src))

/-! ### Sample scaling and the block codec (source.cpp lines 155-272)

Samples and accumulator cells are modelled as exact rationals; Vec16f
vectors become functions of the lane index. -/

/-- The scale factor of `load_block` / `store_frame` (lines 167-170 and
238-241): `1.0f / (1 << (bits_per_sample - 8))`, overridden to `255.0f`
for 32-bit float samples. -/
def scaleFactor (bits_per_sample : ℕ) : ℚ :=
  if bits_per_sample = 32 then 255 else 1 / 2 ^ (bits_per_sample - 8)

/-- `(bits_per_sample + 7) / 8` (lines 172, 243). -/
def bytes_per_sample (bits_per_sample : ℕ) : ℕ := (bits_per_sample + 7) / 8

/-- `static_cast<int>` of a float value: truncation toward zero. -/
def ratTrunc (q : ℚ) : ℤ := if 0 ≤ q then ⌊q⌋ else ⌈q⌉

/-- `load_block` (lines 155-206): the value the loaded block holds at
temporal slice `i`, row `j`, lane `lane`.  All three sample-width branches
compute `scale * window[i * block_size + j] * input`, where the input
lane comes from flat offset `(i * offset_y + j) * offset_x + lane` of the
padded source (`offset_x/offset_y` are the padded width/height,
lines 177-178), shifted by the caller.  `window` is the flat array of
16-lane rows built in `DFTTestCreate` (lines 576-582). -/
def load_block (radius block_step width height : ℕ) (window : ℕ → ℕ → ℚ)
    (shifted_src : ℕ → ℚ) (bits_per_sample : ℕ) (i j lane : ℕ) : ℚ :=
  scaleFactor bits_per_sample * window (i * 16 + j) lane *
    shifted_src ((i * calc_pad_size height 16 block_step + j) *
      calc_pad_size width 16 block_step + lane)

/-- `store_block` (lines 208-226): each of the 16 rows of the (shifted)
block is multiplied lane-wise by the matching row of the (shifted)
synthesis window and added onto the accumulator rows (`mul_add`). -/
def store_block (shifted_dst : ℕ → ℕ → ℚ)
    (shifted_block shifted_window : ℕ → ℕ → ℚ) : ℕ → ℕ → ℚ :=
  fun i lane =>
    if i < 16 ∧ lane < 16 then
      shifted_dst i lane + shifted_block i lane * shifted_window i lane
    else shifted_dst i lane

/-- `store_frame` (lines 228-272): the value written to destination pixel
`(y, x)`.  Integer sample widths (1 or 2 bytes) round (`+ 0.5f`), truncate
to `int` and clamp to `[0, (1 << bits) - 1]`; the 4-byte float branch
writes `src / scale` unchanged. -/
def store_frame (shifted_src : ℕ → ℚ) (src_stride bits_per_sample : ℕ)
    (y x : ℕ) : ℚ :=
  if bytes_per_sample bits_per_sample = 1 ∨ bytes_per_sample bits_per_sample = 2 then
    ((min (max (ratTrunc (shifted_src (y * src_stride + x) / scaleFactor bits_per_sample + 1/2)) 0)
        (2 ^ bits_per_sample - 1) : ℤ) : ℚ)
  else
    shifted_src (y * src_stride + x) / scaleFactor bits_per_sample

/-! ### Window tensor slices (source.cpp lines 185, 459-467, 576-582)

`DFTTestCreate` (lines 576-582) lays the caller-supplied window tensor out
as `(2 * radius + 1) * block_size * block_size / 16` Vec16f rows, sixteen
rows per temporal slice; `window i lane` below is row `i`, lane `lane` of
that flat array. -/

/-- The analysis window slice `load_block` applies to temporal slice `s`:
row `j` is flat row `s * block_size + j` (line 185). -/
def analysis_window_slice (window : ℕ → ℕ → ℚ) (s : ℕ) : ℕ → ℕ → ℚ :=
  fun j lane => window (s * 16 + j) lane

/-- The synthesis window rows `DFTTestGetFrame` hands to `store_block`:
`&d->window[d->radius * block_size * 2]` (line 466), i.e. row `i` of the
argument is flat row `radius * 16 * 2 + i`. -/
def getframe_synthesis_window (window : ℕ → ℕ → ℚ) (radius : ℕ) : ℕ → ℕ → ℚ :=
  fun i lane => window (radius * 16 * 2 + i) lane

/-! ### Frame output assembly (source.cpp lines 310-491) -/

/-- The source frame requested for temporal slot `i` of the window around
frame `n` (lines 378-383): frame `n - radius + i`, clamped into
`[0, numFrames - 1]`. -/
def src_frame_index (n radius numFrames i : ℤ) : ℤ :=
  max 0 (min (n - radius + i) (numFrames - 1))

/-- Per-plane output of `DFTTestGetFrame`: `newVideoFrame2` is called with
`fr[plane] = src_center_frame` exactly when `process[plane]` is false
(lines 388-397), which per the VapourSynth API makes the new frame reuse
that plane of the center frame; the processing loop skips those planes
(lines 399-402) and overwrites the others with the filtered plane
(lines 404-485), abstracted here as `filtered`. -/
def DFTTestGetFrame_output (n radius numFrames : ℤ) (process : Fin 3 → Bool)
    (frames : ℤ → Fin 3 → ℕ → ℕ → ℚ) (filtered : Fin 3 → ℕ → ℕ → ℚ)
    (p : Fin 3) : ℕ → ℕ → ℚ :=
  if process p then filtered p
  else frames (src_frame_index n radius numFrames radius) p

/-! ### Parameter validation in DFTTestCreate (source.cpp lines 537-558) -/

/-- The numeric-parameter checks of `DFTTestCreate`: `radius` must lie in
`[0, 3]` (lines 542-544) and `block_size` must equal 16 (lines 551-553);
`block_step` is read at lines 555-558 and stored without any range
check. -/
def dfttest_create_param_check (radius block_size block_step : ℤ) :
    Except String Unit :=
  if radius < 0 ∨ 3 < radius then
    .error "radius must be in [0, 1, 2, 3]"
  else if block_size ≠ 16 then
    .error "block_size must be 16"
  else
    .ok ()

/-! ### The offline DFT utility (source.cpp lines 27-52 and 632-710) -/

/-- The kernel weight of `dft` (lines 46-47):
`std::complex(cos(imag), sin(imag))` with `imag = -2 * i * j * pi / n`. -/
noncomputable def dftWeight (n i j : ℕ) : ℂ :=
  Complex.mk (Real.cos (-2 * i * j * Real.pi / n))
             (Real.sin (-2 * i * j * Real.pi / n))

/-- `dft` (lines 27-52): output bin `i` is `sum_j src[j] * weight(i, j)`. -/
noncomputable def dft (n : ℕ) (src : ℕ → ℂ) (i : ℕ) : ℂ :=
  Finset.sum (Finset.range n) (fun j => src j * dftWeight n i j)

/-- `out_num` (line 42): `n / 2 + 1` Hermitian-compressed bins for real
input, `n` bins for complex input. -/
def dft_out_num (n : ℕ) (input_is_real : Bool) : ℕ :=
  if input_is_real then n / 2 + 1 else n

/-- `size` in `RDFT` (lines 654-657): the product of the shape entries,
accumulated left to right. -/
def rdft_size (shape : List ℤ) : ℤ :=
  shape.foldl (fun a b => a * b) 1

/-- `complex_size` in `RDFT` (lines 662-665): `shape[ndim-1] / 2 + 1`
(C truncating division) multiplied by the leading dimensions. -/
def rdft_complex_size (shape : List ℤ) : ℤ :=
  shape.dropLast.foldl (fun a b => a * b) (Int.tdiv (shape.getLastD 0) 2 + 1)

/-- The 1-D branch of `RDFT` (lines 671-673): one real-input `dft` pass. -/
noncomputable def rdft1_out (n : ℕ) (input : ℕ → ℂ) : ℕ → ℂ :=
  fun i => dft n input i

/-- The 2-D branch of `RDFT` (lines 674-685): a real-input `dft` along
each row (flat bin index `i * (s1/2+1) + k`), then a complex `dft` along
each column of the half-spectrum with stride `s1/2+1`. -/
noncomputable def rdft2_out (s0 s1 : ℕ) (input : ℕ → ℂ) : ℕ → ℂ :=
  let c1 := s1 / 2 + 1
  let stage1 : ℕ → ℂ := fun idx =>
    dft s1 (fun j => input ((idx / c1) * s1 + j)) (idx % c1)
  fun idx => dft s0 (fun j => stage1 (j * c1 + idx % c1)) (idx / c1)

/-- The 3-D branch of `RDFT` (lines 686-709): a real-input `dft` along the
last axis, then complex `dft` passes along the middle axis (stride
`s2/2+1`) and the first axis (stride `s1 * (s2/2+1)`). -/
noncomputable def rdft3_out (s0 s1 s2 : ℕ) (input : ℕ → ℂ) : ℕ → ℂ :=
  let c2 := s2 / 2 + 1
  let stage1 : ℕ → ℂ := fun idx =>
    dft s2 (fun j => input ((idx / c2) * s2 + j)) (idx % c2)
  let stage2 : ℕ → ℂ := fun idx =>
    dft s1 (fun m => stage1 ((idx / (s1 * c2)) * (s1 * c2) + m * c2 + idx % c2))
      (idx % (s1 * c2) / c2)
  fun idx => dft s0 (fun j => stage2 (j * (s1 * c2) + idx % (s1 * c2)))
    (idx / (s1 * c2))

/-- `RDFT` (lines 632-710).  The two argument checks (lines 641-644 and
654-660) reject bad shapes; a negative `complex_size` (possible only for
negative shape entries) makes `std::make_unique` at line 669/679 receive a
huge extent and abort, modelled as a third error.  Otherwise the flat
half-spectrum of `complex_size` complex values is returned. -/
noncomputable def RDFT (shape : List ℤ) (data : List ℝ) :
    Except String (List ℂ) :=
  if ¬(shape.length = 1 ∨ shape.length = 2 ∨ shape.length = 3) then
    .error "shape must be an array of ints with 1, 2 or 3 values"
  else if (data.length : ℤ) ≠ rdft_size shape then
    .error "cannot reshape array"
  else if rdft_complex_size shape < 0 then
    .error "bad_alloc"
  else if shape.length = 1 then
    .ok ((List.range (rdft_complex_size shape).toNat).map
      (rdft1_out data.length (fun k => ((data.getD k 0 : ℝ) : ℂ))))
  else if shape.length = 2 then
    .ok ((List.range (rdft_complex_size shape).toNat).map
      (rdft2_out (shape.getD 0 0).toNat (shape.getD 1 0).toNat
        (fun k => ((data.getD k 0 : ℝ) : ℂ))))
  else
    .ok ((List.range (rdft_complex_size shape).toNat).map
      (rdft3_out (shape.getD 0 0).toNat (shape.getD 1 0).toNat
        (shape.getD 2 0).toNat (fun k => ((data.getD k 0 : ℝ) : ℂ))))

/-! ### Helper lemmas on the padding geometry -/

lemma pad_off_key (size step : ℕ) (h16 : step ≤ 16) :
    pad_offset size 16 step + size + step ≤ calc_pad_size size 16 step + 1 := by
  unfold pad_offset calc_pad_size
  split_ifs <;> omega

lemma pad_ge16 (size step : ℕ) (h16 : step ≤ 16) :
    16 ≤ calc_pad_size size 16 step := by
  unfold calc_pad_size
  split_ifs <;> omega

lemma cover1D (size step : ℕ) (h1 : 1 ≤ step) (h16 : step ≤ 16) (x : ℕ)
    (hx2 : x < pad_offset size 16 step + size) :
    ∃ i, i < calc_pad_num size 16 step ∧ i * step ≤ x ∧ x < i * step + 16 := by
  set pad := calc_pad_size size 16 step with hpad
  by_cases h : x / step ≤ (pad - 16) / step
  · refine ⟨x / step, ?_, Nat.div_mul_le_self x step, ?_⟩
    · unfold calc_pad_num
      rw [← hpad]
      omega
    · have hdm : x / step * step + x % step = x := Nat.div_add_mod' x step
      have hm := Nat.mod_lt x (show 0 < step by omega)
      omega
  · refine ⟨(pad - 16) / step, ?_, ?_, ?_⟩
    · unfold calc_pad_num
      rw [← hpad]
      omega
    · have hmul : ((pad - 16) / step + 1) * step ≤ x / step * step :=
        Nat.mul_le_mul_right step (by omega)
      rw [Nat.add_mul, Nat.one_mul] at hmul
      have hdm : x / step * step ≤ x := Nat.div_mul_le_self x step
      omega
    · have hkey := pad_off_key size step h16
      have hge := pad_ge16 size step h16
      have hdm : (pad - 16) / step * step + (pad - 16) % step = pad - 16 :=
        Nat.div_add_mod' (pad - 16) step
      have hm := Nat.mod_lt (pad - 16) (show 0 < step by omega)
      omega

/-! ### Characterization of the mirror loops

The low-side loop writes indices `0..m-1` (with `m ≤ c`) while reading
only indices `≥ c + 1`, so every cell it writes takes its value from the
initial state.  The high-side loop writes indices `s..s+len-1` while
reading only indices `< s`, so the same holds. -/

lemma upd_apply {β : Type} (g : ℕ → β) (i : ℕ) (v : β) (x : ℕ) :
    upd g i v x = if x = i then v else g x := rfl

lemma mirrorLo_spec {β : Type} (c : ℕ) (f : ℕ → β) :
    ∀ m, m ≤ c → ∀ z, mirrorLo c m f z =
      if z < m then f (2 * c - z) else f z := by
  intro m
  induction m with
  | zero =>
    intro _ z
    simp [mirrorLo]
  | succ m ih =>
    intro hm z
    have ihm := ih (Nat.le_of_succ_le hm)
    unfold mirrorLo at ihm ⊢
    rw [List.range_succ m, List.foldl_append, List.foldl_cons, List.foldl_nil]
    show upd ((List.range m).foldl _ f) m
        (((List.range m).foldl _ f) (2 * c - m)) z = _
    rw [upd_apply]
    by_cases hz : z = m
    · subst hz
      rw [if_pos rfl, ihm (2 * c - z), if_neg (by omega), if_pos (by omega)]
    · rw [if_neg hz, ihm z]
      by_cases h1 : z < m
      · rw [if_pos h1, if_pos (by omega)]
      · rw [if_neg h1, if_neg (by omega)]

lemma mirrorHi_spec {β : Type} (s : ℕ) (hs : 1 ≤ s) (f : ℕ → β) :
    ∀ len, ∀ z, mirrorHi s len f z =
      if s ≤ z ∧ z < s + len then f (2 * s - 2 - z) else f z := by
  intro len
  induction len with
  | zero =>
    intro z
    rw [if_neg (by omega)]
    simp [mirrorHi]
  | succ len ih =>
    intro z
    unfold mirrorHi at ih ⊢
    rw [List.range'_concat s len, List.foldl_append, List.foldl_cons,
      List.foldl_nil]
    show upd ((List.range' s len).foldl _ f) (s + 1 * len)
        (((List.range' s len).foldl _ f) (2 * s - 2 - (s + 1 * len))) z = _
    rw [upd_apply]
    by_cases hz : z = s + 1 * len
    · subst hz
      rw [if_pos rfl, ih (2 * s - 2 - (s + 1 * len)), if_neg (by omega),
        if_pos (by omega)]
    · rw [if_neg hz, ih z]
      by_cases h1 : s ≤ z ∧ z < s + len
      · rw [if_pos h1, if_pos (by omega)]
      · rw [if_neg h1, if_neg (by omega)]

lemma pad_offset_add_le (size bs step : ℕ) :
    pad_offset size bs step + size ≤ calc_pad_size size bs step := by
  unfold pad_offset
  have h2 : (calc_pad_size size bs step - size) / 2 ≤
      calc_pad_size size bs step - size := Nat.div_le_self _ _
  have h3 : size ≤ calc_pad_size size bs step := by
    unfold calc_pad_size
    exact le_trans (Nat.le_add_right _ _) (Nat.le_add_right _ _)
  omega

/-! ### Claim theorems -/

/-- C2 (counterexample): the congruence `(calc_pad_size n 16 step - 16) %
step = 0` claimed by the spec fails at `n = 16`, `block_step = 3`:
`calc_pad_size 16 16 3 = 42` and `(42 - 16) % 3 = 2`. -/
theorem calc_pad_size_not_congruent_step3 :
    (calc_pad_size 16 16 3 - 16) % 3 ≠ 0 := by decide

/-- C2 (amended): for every plane size `n ≥ 1` and every `block_step ≥ 1`
that divides the block size 16, the padded dimension satisfies
`(calc_pad_size n 16 block_step - 16) % block_step = 0`. -/
theorem calc_pad_size_congruent_of_dvd (n step : ℕ) (hn : 1 ≤ n)
    (hstep : 1 ≤ step) (hdvd : step ∣ 16) :
    (calc_pad_size n 16 step - 16) % step = 0 := by
  have h16 : step ≤ 16 := Nat.le_of_dvd (by norm_num) hdvd
  unfold calc_pad_size
  interval_cases step <;>
    first
      | exact absurd hdvd (by decide)
      | (split_ifs <;> omega)

/-- C2 (witness): the amended congruence at `n = 5`, `block_step = 4`. -/
theorem calc_pad_size_congruent_of_dvd_witness :
    (calc_pad_size 5 16 4 - 16) % 4 = 0 :=
  calc_pad_size_congruent_of_dvd 5 4 (by norm_num) (by norm_num) (by norm_num)

/-- C3: for any plane sizes and any `1 ≤ block_step ≤ 16`, every pixel of
the interior (the centered source region) of the padded accumulation
buffer lies inside at least one 16x16 block of the
`calc_pad_num x calc_pad_num` grid of blocks placed at offsets
`i * block_step` along each axis. -/
theorem block_grid_covers_interior (width height step : ℕ)
    (hstep1 : 1 ≤ step) (hstep16 : step ≤ 16) (y x : ℕ)
    (hy1 : pad_offset height 16 step ≤ y)
    (hy2 : y < pad_offset height 16 step + height)
    (hx1 : pad_offset width 16 step ≤ x)
    (hx2 : x < pad_offset width 16 step + width) :
    ∃ i j, i < calc_pad_num height 16 step ∧ j < calc_pad_num width 16 step ∧
      i * step ≤ y ∧ y < i * step + 16 ∧ j * step ≤ x ∧ x < j * step + 16 := by
  obtain ⟨i, hi1, hi2, hi3⟩ := cover1D height step hstep1 hstep16 y hy2
  obtain ⟨j, hj1, hj2, hj3⟩ := cover1D width step hstep1 hstep16 x hx2
  exact ⟨i, j, hi1, hj1, hi2, hi3, hj2, hj3⟩

/-- C3 (witness): coverage of the interior pixel `(8, 23)` of a 16x16
plane padded with `block_step = 8`. -/
theorem block_grid_covers_interior_witness :
    ∃ i j, i < calc_pad_num 16 16 8 ∧ j < calc_pad_num 16 16 8 ∧
      i * 8 ≤ 8 ∧ 8 < i * 8 + 16 ∧ j * 8 ≤ 23 ∧ 23 < j * 8 + 16 :=
  block_grid_covers_interior 16 16 8 (by norm_num) (by norm_num) 8 23
    (by decide) (by decide) (by decide) (by decide)

/-- C9: `DFTTestCreate` accepts every `block_step` value without any range
check (with valid `radius` and `block_size` the parameter validation
succeeds for any integer `block_step`), and at the accepted configuration
`block_step = 0` the per-frame block count `calc_pad_num` divides by zero,
so frame processing is not total over accepted configurations. -/
theorem block_step_unvalidated_division_by_zero :
    (∀ step : ℤ, dfttest_create_param_check 0 16 step = .ok ()) ∧
    (∀ size : ℕ, calc_pad_num_checked size 16 0 = none) := by
  constructor
  · intro step
    rfl
  · intro size
    rfl

/-- C10: for every plane whose process flag is false, `DFTTestGetFrame`
outputs exactly the corresponding plane of the temporal-center source
frame (frame `n`, which the center slot of the request window resolves to
whenever `n` is a valid frame index). -/
theorem unprocessed_plane_passthrough (n radius numFrames : ℤ)
    (process : Fin 3 → Bool) (frames : ℤ → Fin 3 → ℕ → ℕ → ℚ)
    (filtered : Fin 3 → ℕ → ℕ → ℚ) (p : Fin 3)
    (hp : process p = false) (hn0 : 0 ≤ n) (hn1 : n < numFrames) :
    DFTTestGetFrame_output n radius numFrames process frames filtered p =
      frames n p := by
  unfold DFTTestGetFrame_output
  rw [hp]
  simp only [Bool.false_eq_true, if_false]
  have hc : src_frame_index n radius numFrames radius = n := by
    unfold src_frame_index
    omega
  rw [hc]

/-- C10 (witness): a concrete unprocessed plane is passed through. -/
theorem unprocessed_plane_passthrough_witness :
    DFTTestGetFrame_output 0 1 3 (fun _ => false)
      (fun _ _ => fun _ _ => (7 : ℚ)) (fun _ => fun _ _ => 0) 0 =
      fun _ _ => (7 : ℚ) :=
  unprocessed_plane_passthrough 0 1 3 (fun _ => false)
    (fun _ _ => fun _ _ => (7 : ℚ)) (fun _ => fun _ _ => 0) 0
    rfl (by norm_num) (by norm_num)

/-- C1: the synthesis window `DFTTestGetFrame` passes to `store_block`
(`&d->window[d->radius * block_size * 2]`, line 466) is temporal slice
`2 * radius` of the flat window tensor (whose slices are 16 rows apart, as
`load_block` indexes it at line 185), not the temporal-center slice
`radius` claimed by the spec: for `radius = 1` the two slices differ on
some window tensor. -/
theorem synthesis_window_is_last_slice :
    (∀ (window : ℕ → ℕ → ℚ) (radius : ℕ),
        getframe_synthesis_window window radius =
          analysis_window_slice window (2 * radius)) ∧
    (∃ window : ℕ → ℕ → ℚ,
        getframe_synthesis_window window 1 0 0 ≠
          analysis_window_slice window 1 0 0) := by
  constructor
  · intro window radius
    funext i lane
    unfold getframe_synthesis_window analysis_window_slice
    congr 2
    ring
  · refine ⟨fun r _ => (r : ℚ), ?_⟩
    unfold getframe_synthesis_window analysis_window_slice
    norm_num

/-- C4: whatever rational values the accumulation buffer holds (negative
and overflowing ones included), `store_frame` writes values inside
`[0, 2^bits - 1]` for the integer sample encodings (8..16 bits), while the
32-bit float encoding gets the rescaled value unclamped. -/
theorem store_frame_output_range (bits : ℕ) (src : ℕ → ℚ) (s y x : ℕ) :
    (8 ≤ bits → bits ≤ 16 →
      0 ≤ store_frame src s bits y x ∧
        store_frame src s bits y x ≤ ((2 ^ bits - 1 : ℤ) : ℚ)) ∧
    (bits = 32 → store_frame src s bits y x = src (y * s + x) / 255) := by
  constructor
  · intro h8 h16
    have hb : bytes_per_sample bits = 1 ∨ bytes_per_sample bits = 2 := by
      unfold bytes_per_sample
      omega
    have hpeak : (0 : ℤ) ≤ 2 ^ bits - 1 := by
      have := pow_pos (show (0:ℤ) < 2 by norm_num) bits
      omega
    unfold store_frame
    rw [if_pos hb]
    constructor
    · exact_mod_cast le_min (le_max_right _ 0) hpeak
    · exact_mod_cast min_le_right _ _
  · intro h32
    subst h32
    have hb : ¬(bytes_per_sample 32 = 1 ∨ bytes_per_sample 32 = 2) := by decide
    unfold store_frame
    rw [if_neg hb]
    unfold scaleFactor
    norm_num

/-- C4 (witness): an 8-bit store of a strongly negative accumulator value
stays in `[0, 255]`. -/
theorem store_frame_output_range_witness :
    0 ≤ store_frame (fun _ => (-12345 : ℚ)) 1 8 0 0 ∧
      store_frame (fun _ => (-12345 : ℚ)) 1 8 0 0 ≤ ((2 ^ 8 - 1 : ℤ) : ℚ) :=
  (store_frame_output_range 8 (fun _ => (-12345 : ℚ)) 1 0 0).1
    (by norm_num) (by norm_num)

/-- C5: the scale factor applied by `load_block` (`1 / 2^(bits-8)` for
integer samples, `255` for 32-bit float samples) is exactly inverted by
`store_frame` (division by the same factor plus `+0.5` rounding on the
integer encodings): with unit windows and identity filtering, storing a
loaded sample reproduces it, exactly for in-range integer samples and
exactly for float samples. -/
theorem load_store_roundtrip (bits radius bstep w h i j lane s y x : ℕ)
    (v : ℕ) :
    (8 ≤ bits → bits ≤ 16 → (v : ℤ) ≤ 2 ^ bits - 1 →
      store_frame (fun _ => load_block radius bstep w h (fun _ _ => 1)
          (fun _ => (v : ℚ)) bits i j lane) s bits y x = (v : ℚ)) ∧
    (∀ u : ℚ,
      store_frame (fun _ => load_block radius bstep w h (fun _ _ => 1)
          (fun _ => u) 32 i j lane) s 32 y x = u) := by
  constructor
  · intro h8 h16 hv
    have hb : bytes_per_sample bits = 1 ∨ bytes_per_sample bits = 2 := by
      unfold bytes_per_sample
      omega
    have hscale : scaleFactor bits = 1 / 2 ^ (bits - 8) := by
      unfold scaleFactor
      rw [if_neg (by omega)]
    have hspos : (0 : ℚ) < scaleFactor bits := by
      rw [hscale]
      positivity
    unfold store_frame load_block
    rw [if_pos hb]
    have harg : scaleFactor bits * 1 * (v : ℚ) / scaleFactor bits + 1/2 =
        (v : ℚ) + 1/2 := by
      field_simp
    rw [harg]
    have htr : ratTrunc ((v : ℚ) + 1/2) = (v : ℤ) := by
      unfold ratTrunc
      rw [if_pos (by positivity)]
      rw [Int.floor_eq_iff]
      constructor
      · push_cast
        linarith
      · push_cast
        linarith
    rw [htr]
    rw [max_eq_left (by positivity), min_eq_left hv]
    norm_num
  · intro u
    have hb : ¬(bytes_per_sample 32 = 1 ∨ bytes_per_sample 32 = 2) := by
      decide
    unfold store_frame load_block
    rw [if_neg hb]
    unfold scaleFactor
    norm_num

/-- C5 (witness): an 8-bit sample of value 200 survives the load/store
round trip. -/
theorem load_store_roundtrip_witness :
    store_frame (fun _ => load_block 0 16 16 16 (fun _ _ => 1)
        (fun _ => (200 : ℚ)) 8 0 0 0) 1 8 0 0 = (200 : ℚ) :=
  (load_store_roundtrip 8 0 16 16 16 0 0 0 1 0 0 200).1
    (by norm_num) (by norm_num) (by norm_num)

/-- C6 (counterexample): the reflection equality
`dst[y][offset_x - k] = dst[y][offset_x + k]` fails for `k ≥ width`: for a
2x1 plane with `block_step = 8` (`offset_x = 15`), the left mirror loop
copies, at `k = 2`, a cell of the right padding strip that has not been
written yet (modelled `none`), while the right strip is filled afterwards
from the source. -/
theorem reflection_padding_mirror_counterexample :
    reflection_padding_impl 2 1 16 8 (fun _ x => x) 15 13 ≠
      reflection_padding_impl 2 1 16 8 (fun _ x => x) 15 17 := by
  decide

/-- C6 (amended): after `reflection_padding_impl`, the reflection
equalities hold whenever the mirrored index lands inside the valid
region: for source rows, `dst[y][offset_x - k] = dst[y][offset_x + k]`
for `1 ≤ k ≤ offset_x` with `k < width`, and the analogous equality about
the last valid column for the whole right margin; whole padded rows
satisfy the analogous equalities about the first valid row (for
`1 ≤ k ≤ offset_y` with `k < height`) and about the last valid row (for
the whole bottom margin). -/
theorem reflection_padding_mirror {α : Type} (width height bs step : ℕ)
    (src : ℕ → ℕ → α) (hw : 1 ≤ width) (hh : 1 ≤ height) :
    (∀ y k, pad_offset height bs step ≤ y →
      y < pad_offset height bs step + height →
      1 ≤ k → k ≤ pad_offset width bs step → k < width →
      reflection_padding_impl width height bs step src y
          (pad_offset width bs step - k) =
        reflection_padding_impl width height bs step src y
          (pad_offset width bs step + k)) ∧
    (∀ y k, pad_offset height bs step ≤ y →
      y < pad_offset height bs step + height →
      1 ≤ k → k + (pad_offset width bs step + width) ≤
        calc_pad_size width bs step →
      k ≤ pad_offset width bs step + width - 1 →
      reflection_padding_impl width height bs step src y
          (pad_offset width bs step + width - 1 + k) =
        reflection_padding_impl width height bs step src y
          (pad_offset width bs step + width - 1 - k)) ∧
    (∀ k x, 1 ≤ k → k ≤ pad_offset height bs step → k < height →
      reflection_padding_impl width height bs step src
          (pad_offset height bs step - k) x =
        reflection_padding_impl width height bs step src
          (pad_offset height bs step + k) x) ∧
    (∀ k x, 1 ≤ k → k + (pad_offset height bs step + height) ≤
        calc_pad_size height bs step →
      k ≤ pad_offset height bs step + height - 1 →
      reflection_padding_impl width height bs step src
          (pad_offset height bs step + height - 1 + k) x =
        reflection_padding_impl width height bs step src
          (pad_offset height bs step + height - 1 - k) x) := by
  set ox := pad_offset width bs step with hox
  set oy := pad_offset height bs step with hoy
  set pw := calc_pad_size width bs step with hpw
  set ph := calc_pad_size height bs step with hph
  have hxw : ox + width ≤ pw := pad_offset_add_le width bs step
  have hyh : oy + height ≤ ph := pad_offset_add_le height bs step
  have hs1 : 1 ≤ oy + height := by omega
  have hs2 : 1 ≤ ox + width := by omega
  refine ⟨?_, ?_, ?_, ?_⟩
  · intro y k hy1 hy2 hk1 hk2 hk3
    unfold reflection_padding_impl
    rw [mirrorHi_spec (oy + height) hs1 _ _ y, if_neg (by omega),
      mirrorLo_spec oy _ oy le_rfl y, if_neg (by omega)]
    unfold padRows
    rw [if_pos ⟨hy1, hy2⟩]
    unfold rowPad
    rw [mirrorHi_spec (ox + width) hs2 _ _ (ox - k), if_neg (by omega),
      mirrorHi_spec (ox + width) hs2 _ _ (ox + k), if_neg (by omega),
      mirrorLo_spec ox _ ox le_rfl (ox - k), if_pos (by omega),
      mirrorLo_spec ox _ ox le_rfl (ox + k), if_neg (by omega)]
    congr 1
    omega
  · intro y k hy1 hy2 hk1 hk2 hk3
    unfold reflection_padding_impl
    rw [mirrorHi_spec (oy + height) hs1 _ _ y, if_neg (by omega),
      mirrorLo_spec oy _ oy le_rfl y, if_neg (by omega)]
    unfold padRows
    rw [if_pos ⟨hy1, hy2⟩]
    unfold rowPad
    rw [mirrorHi_spec (ox + width) hs2 _ _ (ox + width - 1 + k),
      if_pos (by omega),
      mirrorHi_spec (ox + width) hs2 _ _ (ox + width - 1 - k),
      if_neg (by omega)]
    congr 1
    omega
  · intro k x hk1 hk2 hk3
    unfold reflection_padding_impl
    rw [mirrorHi_spec (oy + height) hs1 _ _ (oy - k), if_neg (by omega),
      mirrorHi_spec (oy + height) hs1 _ _ (oy + k), if_neg (by omega),
      mirrorLo_spec oy _ oy le_rfl (oy - k), if_pos (by omega),
      mirrorLo_spec oy _ oy le_rfl (oy + k), if_neg (by omega)]
    have harg : 2 * oy - (oy - k) = oy + k := by omega
    rw [harg]
  · intro k x hk1 hk2 hk3
    unfold reflection_padding_impl
    rw [mirrorHi_spec (oy + height) hs1 _ _ (oy + height - 1 + k),
      if_pos (by omega),
      mirrorHi_spec (oy + height) hs1 _ _ (oy + height - 1 - k),
      if_neg (by omega)]
    have harg : 2 * (oy + height) - 2 - (oy + height - 1 + k) =
        oy + height - 1 - k := by omega
    rw [harg]

/-- C6 (witness): the left reflection equality on a 16x16 plane with
`block_step = 8` at source row 8, `k = 1`. -/
theorem reflection_padding_mirror_witness :
    reflection_padding_impl 16 16 16 8 (fun y x => 100 * y + x) 8
        (pad_offset 16 16 8 - 1) =
      reflection_padding_impl 16 16 16 8 (fun y x => 100 * y + x) 8
        (pad_offset 16 16 8 + 1) :=
  (reflection_padding_mirror 16 16 16 8 (fun y x => 100 * y + x)
      (by norm_num) (by norm_num)).1 8 1
    (by decide) (by decide) (by decide) (by decide) (by decide)

/-! ### Helper lemmas for the DFT claims -/

lemma dftWeight_exp (n i j : ℕ) :
    dftWeight n i j =
      Complex.exp (-2 * (Real.pi : ℂ) * Complex.I * (i : ℂ) * (j : ℂ) / (n : ℂ)) := by
  have h1 : ((-2 * (i : ℝ) * (j : ℝ) * Real.pi / (n : ℝ) : ℝ) : ℂ) * Complex.I =
      -2 * (Real.pi : ℂ) * Complex.I * (i : ℂ) * (j : ℂ) / (n : ℂ) := by
    push_cast
    ring
  rw [← h1, Complex.exp_mul_I, ← Complex.ofReal_cos, ← Complex.ofReal_sin]
  unfold dftWeight
  rw [Complex.mk_eq_add_mul_I]

lemma dftWeight_zero (n i : ℕ) : dftWeight n i 0 = 1 := by
  unfold dftWeight
  have h1 : (-2 * (i : ℝ) * ((0 : ℕ) : ℝ) * Real.pi / (n : ℝ) : ℝ) = 0 := by
    push_cast
    ring
  rw [h1, Real.cos_zero, Real.sin_zero, Complex.mk_eq_add_mul_I]
  norm_num

/-- C7: the offline transform is the exact discrete Fourier transform:
every kernel weight equals `exp (-2 * pi * I * i * j / n)`, real input
yields `n / 2 + 1` Hermitian-compressed bins, and the reference call
`RDFT` with shape `[4]` and data `[1, 0, 0, 0]` returns exactly
`[1 + 0i, 1 + 0i, 1 + 0i]`. -/
theorem dft_exact :
    (∀ n i j : ℕ, dftWeight n i j =
      Complex.exp (-2 * (Real.pi : ℂ) * Complex.I * (i : ℂ) * (j : ℂ) / (n : ℂ))) ∧
    (∀ n : ℕ, dft_out_num n true = n / 2 + 1) ∧
    RDFT [4] [1, 0, 0, 0] = .ok [1, 1, 1] := by
  refine ⟨dftWeight_exp, fun n => rfl, ?_⟩
  have hstep : RDFT [4] [1, 0, 0, 0] =
      .ok ((List.range (rdft_complex_size [4]).toNat).map
        (rdft1_out (List.length [(1:ℝ), 0, 0, 0])
          (fun k => (([(1:ℝ), 0, 0, 0].getD k 0 : ℝ) : ℂ)))) := by
    rfl
  rw [hstep]
  have hcs : (rdft_complex_size [4]).toNat = 3 := by decide
  rw [hcs]
  have hdft : ∀ i : ℕ,
      rdft1_out (List.length [(1:ℝ), 0, 0, 0])
        (fun k => (([(1:ℝ), 0, 0, 0].getD k 0 : ℝ) : ℂ)) i = 1 := by
    intro i
    unfold rdft1_out dft
    rw [show List.length [(1:ℝ), 0, 0, 0] = 4 from rfl]
    rw [Finset.sum_range_succ, Finset.sum_range_succ, Finset.sum_range_succ,
      Finset.sum_range_succ, Finset.sum_range_zero]
    simp only [List.getD, List.getElem?_cons_zero, List.getElem?_cons_succ,
      Option.getD_some]
    norm_num [dftWeight_zero]
  show Except.ok ([0, 1, 2].map _) = _
  rw [List.map_cons, List.map_cons, List.map_cons, List.map_nil,
    hdft 0, hdft 1, hdft 2]

/-- C8 (counterexample): the shape `[-1, -1]` with one data element passes
both argument checks of `RDFT` (two shape entries, and the data count 1
equals the shape product), yet no result is produced: the computed complex
output size is `-1` and the allocation aborts. -/
theorem RDFT_accepts_shape_but_aborts :
    List.length [(-1 : ℤ), -1] = 2 ∧
      (List.length [(0 : ℝ)] : ℤ) = rdft_size [(-1 : ℤ), -1] ∧
      RDFT [(-1 : ℤ), -1] [(0 : ℝ)] = .error "bad_alloc" :=
  ⟨rfl, by decide, rfl⟩

/-- C8 (amended): `RDFT` signals an error and produces no result exactly
when the shape does not have 1, 2 or 3 entries, the data count differs
from the shape product, or the computed complex output size is negative
(possible only with negative shape entries); every accepted input yields
the flat Hermitian-compressed output of `rdft_complex_size` complex
values. -/
theorem RDFT_checks (shape : List ℤ) (data : List ℝ) :
    ((∃ e, RDFT shape data = .error e) ↔
      ((shape.length ≠ 1 ∧ shape.length ≠ 2 ∧ shape.length ≠ 3) ∨
        (data.length : ℤ) ≠ rdft_size shape ∨ rdft_complex_size shape < 0)) ∧
    (∀ l, RDFT shape data = .ok l →
      l.length = (rdft_complex_size shape).toNat) := by
  unfold RDFT
  by_cases h1 : shape.length = 1 ∨ shape.length = 2 ∨ shape.length = 3
  · rw [if_neg (not_not_intro h1)]
    by_cases h2 : (data.length : ℤ) = rdft_size shape
    · rw [if_neg (not_not_intro h2)]
      by_cases h3 : rdft_complex_size shape < 0
      · rw [if_pos h3]
        refine ⟨⟨fun _ => Or.inr (Or.inr h3), fun _ => ⟨_, rfl⟩⟩, ?_⟩
        intro l hl
        exact Except.noConfusion hl
      · rw [if_neg h3]
        have hok : ∀ f : ℕ → ℂ,
            ((∃ e, (Except.ok ((List.range (rdft_complex_size shape).toNat).map f) :
                Except String (List ℂ)) = .error e) ↔
              ((shape.length ≠ 1 ∧ shape.length ≠ 2 ∧ shape.length ≠ 3) ∨
                (data.length : ℤ) ≠ rdft_size shape ∨ rdft_complex_size shape < 0)) ∧
            (∀ l, (Except.ok ((List.range (rdft_complex_size shape).toNat).map f) :
                Except String (List ℂ)) = .ok l →
              l.length = (rdft_complex_size shape).toNat) := by
          intro f
          constructor
          · constructor
            · rintro ⟨e, he⟩
              exact Except.noConfusion he
            · intro hor
              exfalso
              rcases hor with h | h | h
              · rcases h1 with e | e | e
                · exact h.1 e
                · exact h.2.1 e
                · exact h.2.2 e
              · exact h h2
              · exact h3 h
          · intro l hl
            injection hl with h
            rw [← h, List.length_map, List.length_range]
        by_cases h4 : shape.length = 1
        · rw [if_pos h4]
          exact hok _
        · rw [if_neg h4]
          by_cases h5 : shape.length = 2
          · rw [if_pos h5]
            exact hok _
          · rw [if_neg h5]
            exact hok _
    · rw [if_pos h2]
      refine ⟨⟨fun _ => Or.inr (Or.inl h2), fun _ => ⟨_, rfl⟩⟩, ?_⟩
      intro l hl
      exact Except.noConfusion hl
  · rw [if_pos h1]
    refine ⟨⟨fun _ => Or.inl (by push_neg at h1; exact h1), fun _ => ⟨_, rfl⟩⟩, ?_⟩
    intro l hl
    exact Except.noConfusion hl

/-- C8 (witness): the accepted call with shape `[4]` and four data values
returns the three Hermitian bins. -/
theorem RDFT_checks_witness :
    ((List.range (rdft_complex_size [4]).toNat).map
      (rdft1_out (List.length [(1:ℝ), 0, 0, 0])
        (fun k => (([(1:ℝ), 0, 0, 0].getD k 0 : ℝ) : ℂ)))).length = 3 :=
  (RDFT_checks [4] [1, 0, 0, 0]).2
    ((List.range (rdft_complex_size [4]).toNat).map
      (rdft1_out (List.length [(1:ℝ), 0, 0, 0])
        (fun k => (([(1:ℝ), 0, 0, 0].getD k 0 : ℝ) : ℂ)))) rfl

end DFTTest
